import Mathlib

/-!
# pi-delivery: digit ranges of π served from packed shard files

A shallow embedding of the request path of `pi-delivery`:

* `ycd` / `resultset`: the shard descriptors and the result-set geometry
  (`BlockSize`, `TotalDigits`, `BlockByteLength`, `OffsetToBlockPos`, ...);
* `service`: `Service.Get` (`pkg/service/service.go`), the orchestrator that
  inserts the digit before the decimal point and drives the unpack reader;
* `rest`: the Cloud Functions handler `Get` (`functions.go`) with its query
  parsing and validation.

Go `int64` values are `Int`; the one place where wrap-around can occur
(`start--`) goes through `wrapInt64`.  A Go runtime panic is `none`.
-/

set_option autoImplicit false

/-! ## Machine integers, bytes and errors -/

/-- Two's-complement wrap of a mathematical integer into the `int64` range. -/
def wrapInt64 (x : Int) : Int :=
  (x + 9223372036854775808) % 18446744073709551616 - 9223372036854775808

/-- Largest `int64`. -/
def maxInt64 : Int := 9223372036854775807

/-- Smallest `int64`. -/
def minInt64 : Int := -9223372036854775808

/-- A Go `error` value, reduced to what the request path inspects: its text
and whether `errors.Is(err, io.EOF)` holds for it (it is `io.EOF` or wraps it). -/
structure GoError where
  msg : String
  isEOF : Bool
  deriving DecidableEq

namespace io

/-- The sentinel `io.EOF`. -/
def EOF : GoError := { msg := "EOF", isEOF := true }

end io

/-- The call `fmt.Errorf(pre + ": %w", err)`: `pre` is put in front of the text and the
wrapped chain, hence `errors.Is(_, io.EOF)`, is kept. -/
def wrapError (pre : String) (err : GoError) : GoError :=
  { msg := pre ++ ": " ++ err.msg, isEOF := err.isEOF }

/-! ## Shard descriptors (`pkg/ycd`), as used by `resultset_test.go` -/

namespace ycd

/-- Header of one `.ycd` shard file (the fields the tests populate). -/
structure Header where
  FileVersion : String
  Radix : Int
  FirstDigits : String
  TotalDigits : Int
  BlockSize : Int
  BlockID : Int
  Length : Int
  deriving DecidableEq

/-- One shard: its header, its object name and where its digit words start. -/
structure YCDFile where
  Header : ycd.Header
  Name : String
  FirstDigitOffset : Int
  deriving DecidableEq

end ycd

/-! ## Result sets (`pkg/resultset`) -/

namespace resultset

/-- A result set is the ordered slice of its shards (`type ResultSet []*ycd.YCDFile`). -/
abbrev ResultSet := List ycd.YCDFile

/-- The character standing right before the first `'.'` of a digit string. -/
def charBeforeDot : List Char → Option Char
  | c :: d :: rest => if d = '.' then some c else charBeforeDot (d :: rest)
  | _ => none

/-- Modelled from the spec: `ResultSet.BlockSize` (resultset.go is not among
the sources). All shards share one block size; it is read off the first
shard, and an empty set has block size 0. -/
def BlockSize (s : ResultSet) : Int :=
  match s with
  | [] => 0
  | f :: _ => f.Header.BlockSize

/-- Modelled from the spec: `ResultSet.Radix` (resultset.go is not among the
sources). All shards share one radix; it is read off the first shard. -/
def Radix (s : ResultSet) : Int :=
  match s with
  | [] => 0
  | f :: _ => f.Header.Radix

/-- Modelled from the spec: `ResultSet.DigitsPerWord` (resultset.go is not
among the sources): "`digits_per_word = 19` for radix 10, `16` for radix 16";
other radices are rejected when a header is parsed and give 0 here. -/
def DigitsPerWord (s : ResultSet) : Int :=
  if Radix s = 10 then 19 else if Radix s = 16 then 16 else 0

/-- Modelled from the spec: `ResultSet.BlockByteLength` (resultset.go is not
among the sources): "`block_byte_length = ceil(block_size / digits_per_word) * 8`",
the ceiling taken by integer division. -/
def BlockByteLength (s : ResultSet) : Int :=
  Int.tdiv (BlockSize s + DigitsPerWord s - 1) (DigitsPerWord s) * 8

/-- Modelled from the spec: `ResultSet.TotalDigits` (resultset.go is not among
the sources). A full last shard (header `TotalDigits` zero) gives
`len(set) * BlockSize()`. For a short last shard the value is pinned by
`TestResultSet_DecimalPartialBlock` (resultset_test.go:240): two shards of
block size 100 whose last header has `TotalDigits: 150` give 150, that is the
header value itself. -/
def TotalDigits (s : ResultSet) : Int :=
  match s.getLast? with
  | none => 0
  | some last =>
    if last.Header.TotalDigits ≠ 0 then last.Header.TotalDigits
    else (s.length : Int) * BlockSize s

/-- Modelled from the spec: `ResultSet.TotalByteLength` (resultset.go is not
among the sources): "`len(shards) * block_byte_length`". -/
def TotalByteLength (s : ResultSet) : Int :=
  (s.length : Int) * BlockByteLength s

/-- Modelled from the spec: `ResultSet.FirstDigit` (resultset.go is not among
the sources): "the character before '.' in `first_digits`", as a byte; 0 when
there is none. -/
def FirstDigit (s : ResultSet) : UInt8 :=
  match s with
  | [] => 0
  | f :: _ =>
    match charBeforeDot f.Header.FirstDigits.data with
    | some c => c.toNat.toUInt8
    | none => 0

/-- Modelled from the spec: `ResultSet.OffsetToBlockPos` (resultset.go is not
among the sources): "`offset_to_block_pos(byte_off) → (block_id,
byte_off_within_block)`: integer division by `block_byte_length`", with Go's
truncating `/` and `%`, and "Callers past the end receive
`block_id == len(shards)` with offset 0, signalling EOF to the layer above":
an offset at or beyond `len(shards) * block_byte_length` gives
`(len(shards), 0)`. -/
def OffsetToBlockPos (s : ResultSet) (off : Int) : Int × Int :=
  if (s.length : Int) * BlockByteLength s ≤ off then ((s.length : Int), 0)
  else (Int.tdiv off (BlockByteLength s), Int.tmod off (BlockByteLength s))

end resultset

/-! ## The unpack reader seen from `Service.Get` -/

namespace unpack

/-- What one `ReadAt(p, off)` call hands back: the bytes it stored in
`p[0:read]` (so `read = data.length`) and its error. -/
structure ReadAtResult where
  data : List UInt8
  err : Option GoError
  deriving DecidableEq

/-- The positional digit reader `unpack.Reader.ReadAt`, taken as a parameter
(packages `unpack`, `cached` and the multi-shard reader are not among the
sources): `r len off` is `ReadAt(p, off)` for a buffer with `len(p) = len`. -/
abbrev ReaderAt := Nat → Int → ReadAtResult

/-- Modelled from the spec: the positional interface of the unpack reader
(§4.5, package `unpack` is not among the sources) over a stream `frac` of
already unpacked fractional digits: it fills the buffer from digit offset
`off` until the buffer is full or the stream ends, and reports `io.EOF` when
the stream ended first ("requests entirely past EOF return `(0, EOF)`"). -/
def streamReadAt (frac : List UInt8) : ReaderAt := fun len off =>
  let data := (frac.drop off.toNat).take len
  { data := data, err := if data.length < len then some io.EOF else none }

end unpack

/-! ## `Service.Get` (`pkg/service/service.go`) -/

namespace service

open resultset

/-- What `Service.Get` does to its collaborators, in program order. -/
inductive Event where
  | newReader
  | readAt (len : Nat) (off : Int)
  | close
  deriving DecidableEq

/-- Outcome of one `Service.Get` call: the returned pair `([]byte, error)`
(`none` when the call panics) and the collaborator calls it made. -/
structure GetOutcome where
  ret : Option (List UInt8 × Option GoError)
  trace : List Event
  deriving DecidableEq

/-- The method `Service.Get(ctx, set, start, n)` over the unpack reader
`reader` built on `set` (service.go:48-81).

`unpacked` is the `n`-byte buffer; `ReadAt` stores its bytes in
`unpacked[off:]`, and the final `unpacked[:read]` panics when `read` exceeds
the buffer. `make` panics on a negative length. -/
def Get (reader : unpack.ReaderAt) (set : ResultSet) (start n : Int) : GetOutcome :=
  if n = 0 then
    { ret := some ([], none), trace := [] }
  else
    let zero : Bool := decide (start = 0)
    if n < 0 then
      { ret := none, trace := [] }
    else
      let unpacked : List UInt8 := List.replicate n.toNat 0
      let off : Nat := if zero then 1 else 0
      let unpacked : List UInt8 := if zero then unpacked.set 0 (FirstDigit set) else unpacked
      let start : Int := if zero then start else wrapInt64 (start - 1)
      let len : Nat := (unpacked.drop off).length
      let r := reader len start
      let unpacked : List UInt8 :=
        unpacked.take off ++ r.data ++ unpacked.drop (off + r.data.length)
      let read : Nat := r.data.length
      let trace : List Event := [Event.newReader, Event.readAt len start, Event.close]
      match r.err with
      | some err =>
        if !err.isEOF then
          { ret := some ([], some (wrapError "reader ReadAt()" err)), trace := trace }
        else
          let read : Nat := if zero then read + 1 else read
          if read ≤ n.toNat then { ret := some (unpacked.take read, none), trace := trace }
          else { ret := none, trace := trace }
      | none =>
        let read : Nat := if zero then read + 1 else read
        if read ≤ n.toNat then { ret := some (unpacked.take read, none), trace := trace }
        else { ret := none, trace := trace }

/-- The digit offset `Get` hands to `ReadAt`. -/
def readOffset (start : Int) : Int :=
  if start = 0 then 0 else wrapInt64 (start - 1)

/-- The length of the buffer `Get` hands to `ReadAt`. -/
def readLength (start n : Int) : Nat :=
  if start = 0 then n.toNat - 1 else n.toNat

/-- The bytes `Get` has placed in the buffer before `ReadAt` runs. -/
def integerPart (set : ResultSet) (start : Int) : List UInt8 :=
  if start = 0 then [FirstDigit set] else []

/-- How `Get` ends once `ReadAt` has come back without a fatal error: the
integer digit (if any) followed by the bytes read, or a panic when the reader
reported more bytes than its buffer holds. -/
def finish (set : ResultSet) (start n : Int) (r : unpack.ReadAtResult) : GetOutcome :=
  { ret :=
      if r.data.length ≤ readLength start n then some (integerPart set start ++ r.data, none)
      else none,
    trace := [Event.newReader, Event.readAt (readLength start n) (readOffset start), Event.close] }

/-- A reader that serves the fractional digit stream `frac` and reports no
error other than end of file. -/
def ReadsStream (reader : unpack.ReaderAt) (frac : List UInt8) : Prop :=
  ∀ (len : Nat) (off : Int), 0 ≤ off →
    (reader len off).data = (frac.drop off.toNat).take len ∧
    ∀ e, (reader len off).err = some e → e.isEOF = true

/-- The logical digit stream: the integer digit, then the fractional digits. -/
def logical (set : ResultSet) (frac : List UInt8) : List UInt8 :=
  FirstDigit set :: frac

end service

/-! ## Query parsing (`strconv`, `net/url`) -/

namespace strconv

/-- Value of a run of decimal digits; `none` when the run is empty or holds
anything but `'0'..'9'`. `acc` carries the value read so far. -/
def parseDigitsFrom (acc : Nat) : List Char → Option Nat
  | [] => some acc
  | c :: cs =>
    if '0' ≤ c ∧ c ≤ '9' then parseDigitsFrom (acc * 10 + (c.toNat - '0'.toNat)) cs
    else none

/-- Unsigned decimal value of a non-empty run of digits. -/
def parseDigits (cs : List Char) : Option Nat :=
  match cs with
  | [] => none
  | _ :: _ => parseDigitsFrom 0 cs

/-- The library call `strconv.ParseInt(s, 10, 64)`: an optional sign, then
one or more decimal digits; a value outside the `int64` range is an error
(`none` stands for any non-nil error). -/
def ParseInt (s : String) : Option Int :=
  match s.data with
  | [] => none
  | '-' :: ds =>
    match parseDigits ds with
    | some v => if v ≤ 9223372036854775808 then some (-(v : Int)) else none
    | none => none
  | '+' :: ds =>
    match parseDigits ds with
    | some v => if v < 9223372036854775808 then some (v : Int) else none
    | none => none
  | ds =>
    match parseDigits ds with
    | some v => if v < 9223372036854775808 then some (v : Int) else none
    | none => none

end strconv

namespace url

/-- The query of a request as `url.Values.Get` sees it: the first value of a
key, `""` when the key is absent. -/
abbrev Values := String → String

end url

/-! ## The Cloud Functions handler (`functions.go`) -/

namespace rest

open resultset

/-- Body of a response: plain text, or the JSON encoding of
`GetResponse{Content: ...}`. -/
inductive Body where
  | text (s : String)
  | json (content : List UInt8)
  deriving DecidableEq

/-- What the handler wrote to the `http.ResponseWriter`. -/
structure Response where
  status : Nat
  contentType : String
  allowOrigin : String
  body : Body
  deriving DecidableEq

/-- Process configuration read by the handler: the per-request digit cap and
the two compiled-in result sets of package `gen/index`. -/
structure Config where
  maxDigitsPerRequest : Int
  Decimal : ResultSet
  Hexadecimal : ResultSet

/-- One entry into the core: the arguments of `Service.Get`. -/
structure CoreCall where
  set : ResultSet
  start : Int
  n : Int
  deriving DecidableEq

/-- Outcome of one handler run: the response (`none` when the core panicked)
and the call into the core, if one was made. -/
structure Outcome where
  response : Option Response
  core : Option CoreCall
  deriving DecidableEq

/-- The helper `writeError(l, res, code, s)` (functions.go:93-101), on a
response whose CORS header is already set. -/
def writeError (code : Nat) (s : String) : Response :=
  { status := code, contentType := "text/plain; charset=utf-8", allowOrigin := "*", body := Body.text s }

/-- The helper `getIntQueryParam(l, q, name, def)` (functions.go:103-115). -/
def getIntQueryParam (q : url.Values) (name : String) (dflt : Int) : Except String Int :=
  let p := q name
  if p = "" then Except.ok dflt
  else
    match strconv.ParseInt p with
    | none => Except.error ("invalid request: " ++ name)
    | some i => Except.ok i

/-- The result set the handler picks for a validated radix. -/
def selectSet (cfg : Config) (radix : Int) : ResultSet :=
  if radix = 16 then cfg.Hexadecimal else cfg.Decimal

/-- A request turned away before the core is entered. -/
def reject (s : String) : Outcome :=
  { response := some (writeError 400 s), core := none }

/-- The entry point `Get(res, req)` (functions.go:131-197); `mkReader set` is
the unpack reader `Service.Get` builds over `set`. -/
def Get (cfg : Config) (mkReader : ResultSet → unpack.ReaderAt) (q : url.Values) : Outcome :=
  match getIntQueryParam q "radix" 10 with
  | Except.error e => reject e
  | Except.ok radix =>
    if radix ≠ 10 ∧ radix ≠ 16 then reject "radix must be either 10 or 16"
    else
      let set := selectSet cfg radix
      match getIntQueryParam q "start" 0 with
      | Except.error e => reject e
      | Except.ok start =>
        if start < 0 then reject "start is negative"
        else if start > TotalDigits set then reject "start out of range"
        else
          match getIntQueryParam q "numberOfDigits" 100 with
          | Except.error e => reject e
          | Except.ok numberOfDigits =>
            if numberOfDigits < 0 then reject "numberOfDigits is negative"
            else if numberOfDigits > cfg.maxDigitsPerRequest then reject "numberOfDigits is too big"
            else
              let call : CoreCall := { set := set, start := start, n := numberOfDigits }
              match (service.Get (mkReader set) set start numberOfDigits).ret with
              | none => { response := none, core := some call }
              | some (_, some _) =>
                { response := some (writeError 500 "Internal Server Error"), core := some call }
              | some (unpacked, none) =>
                { response := some { status := 200, contentType := "application/json",
                                     allowOrigin := "*", body := Body.json unpacked },
                  core := some call }

/-- Query parameter `name` "parses as the int64 `v` (default `dflt`)". -/
def parsesAs (q : url.Values) (name : String) (dflt v : Int) : Prop :=
  (q name = "" ∧ v = dflt) ∨ (q name ≠ "" ∧ strconv.ParseInt (q name) = some v)

/-- The requests the handler lets through to the core. -/
def Accepted (cfg : Config) (q : url.Values) (radix start n : Int) : Prop :=
  parsesAs q "radix" 10 radix ∧ (radix = 10 ∨ radix = 16) ∧
  parsesAs q "start" 0 start ∧ 0 ≤ start ∧ start ≤ TotalDigits (selectSet cfg radix) ∧
  parsesAs q "numberOfDigits" 100 n ∧ 0 ≤ n ∧ n ≤ cfg.maxDigitsPerRequest

/-- The text `s` contains the JSON key `"content"`. -/
def hasContentField (s : String) : Prop :=
  List.IsInfix "\"content\"".data s.data

instance (s : String) : Decidable (hasContentField s) :=
  inferInstanceAs (Decidable (List.IsInfix "\"content\"".data s.data))

end rest

namespace resultset

/-- The set `s` with the `TotalDigits` header of every shard `f` replaced by
`g f`, everything else kept. -/
def withTotalDigits (g : ycd.YCDFile → Int) (s : ResultSet) : ResultSet :=
  s.map (fun f => { f with Header := { f.Header with TotalDigits := g f } })

end resultset

/-! ## The gin server (`cmd/server/main.go`) -/

namespace server

open resultset

/-- The struct `getPiRequest` (main.go:32-36); its tags are read by
`fieldErrors` below. -/
structure getPiRequest where
  NumberOfDigits : Int
  Start : Int
  Radix : Int
  deriving DecidableEq

/-- What `c.ShouldBind(&req)` leaves behind: the struct as far as the form
binder filled it, and the binding or validation error (the binder and the
validator engine are gin's, not this repository's). -/
structure BindResult where
  req : getPiRequest
  err : Option GoError
  deriving DecidableEq

/-- The struct-level validator `validateGetPiRequest` (main.go:44-63): the
tags it reports. The closure `isStartInRange` reads `req`, not its
arguments. -/
def validateGetPiRequest (cfg : rest.Config) (req : getPiRequest) : List String :=
  let isStartInRange : Int → Int → Bool := fun _ _ =>
    if req.Radix = 10 then
      if req.Start ≥ TotalDigits cfg.Decimal then false else true
    else
      if req.Start ≥ TotalDigits cfg.Hexadecimal then false else true
  if !isStartInRange req.Radix req.Start then ["startoutofrange"] else []

/-- The field validator `validateDigitsLimit` (main.go:65-67). -/
def validateDigitsLimit (digitsLimit : Int) (field : Int) : Bool :=
  decide (field ≤ digitsLimit)

/-- The failures the validator reports on a bound `getPiRequest`: per field
the first failing tag of its `binding:"..."` list (`min=0,digitslimit`,
`min=0`, `oneof=10 16`), then the reports of the struct-level validator
registered in `setupRouter` (main.go:98-101). -/
def fieldErrors (digitsLimit : Int) (cfg : rest.Config) (req : getPiRequest) :
    List (String × String) :=
  (if req.NumberOfDigits < 0 then [("NumberOfDigits", "min")]
   else if !validateDigitsLimit digitsLimit req.NumberOfDigits then
     [("NumberOfDigits", "digitslimit")]
   else []) ++
  (if req.Start < 0 then [("Start", "min")] else []) ++
  (if req.Radix ≠ 10 ∧ req.Radix ≠ 16 then [("Radix", "oneof")] else []) ++
  (validateGetPiRequest cfg req).map (fun tag => ("Start", tag))

/-- The text of one validation failure, as the validator prints it:
`Key: 'getPiRequest.F' Error:Field validation for 'F' failed on the 'tag' tag`. -/
def fieldErrorText (failure : String × String) : String :=
  "Key: 'getPiRequest." ++ failure.1 ++ "' Error:Field validation for '" ++ failure.1 ++
    "' failed on the '" ++ failure.2 ++ "' tag"

/-- The outcome of `ShouldBind` on a request whose form fields all bound:
the struct, and an error exactly when the validator reports a failure; its
text lists every failure, one per line. -/
def validated (digitsLimit : Int) (cfg : rest.Config) (req : getPiRequest) : BindResult :=
  { req := req,
    err := match fieldErrors digitsLimit cfg req with
      | [] => none
      | failures =>
        some { msg := String.intercalate "\n" (failures.map fieldErrorText),
               isEOF := false } }

/-- A call on the `gin.Context` that writes to the response. -/
inductive Write where
  | abortWithError (code : Nat)
  | string (code : Nat) (body : String)
  | json (code : Nat) (content : List UInt8)
  deriving DecidableEq

/-- The status code a call asks for. -/
def Write.code : Write → Nat
  | Write.abortWithError code => code
  | Write.string code _ => code
  | Write.json code _ => code

/-- Outcome of one `getPi` run: the response calls in program order, the call
into the core if one was made, and whether the core panicked. -/
structure Outcome where
  writes : List Write
  core : Option rest.CoreCall
  panicked : Bool
  deriving DecidableEq

/-- The status on the wire: `AbortWithError` writes the header at once, and
gin's writer ignores a later change of an already written status. -/
def statusOf (o : Outcome) : Option Nat :=
  o.writes.head?.map Write.code

/-- The handler `handlers.getPi` (main.go:73-92); `bound` is what
`c.ShouldBind(&req)` produced. After `AbortWithError` there is no `return`. -/
def getPi (cfg : rest.Config) (mkReader : ResultSet → unpack.ReaderAt) (bound : BindResult) :
    Outcome :=
  let req := bound.req
  let aborted : List Write :=
    match bound.err with
    | some _ => [Write.abortWithError 400]
    | none => []
  let set := if req.Radix = 16 then cfg.Hexadecimal else cfg.Decimal
  let call : rest.CoreCall := { set := set, start := req.Start, n := req.NumberOfDigits }
  match (service.Get (mkReader set) set req.Start req.NumberOfDigits).ret with
  | none => { writes := aborted, core := some call, panicked := true }
  | some (_, some _) =>
    { writes := aborted ++ [Write.string 500 "Internal Server Error"], core := some call,
      panicked := false }
  | some (res, none) =>
    { writes := aborted ++ [Write.json 200 res], core := some call, panicked := false }

end server

/-! ## Test fixtures of `resultset_test.go` -/

namespace fixtures

open resultset

/-- One decimal shard of the test tables. -/
def decShard (id total : Int) (name : String) : ycd.YCDFile :=
  { Header := { FileVersion := "1.1.0", Radix := 10,
                FirstDigits := "3.14159265358979323846264338327950288419716939937510",
                TotalDigits := total, BlockSize := 100, BlockID := id, Length := 198 },
    Name := name, FirstDigitOffset := 201 }

/-- One hexadecimal shard of the test tables. -/
def hexShard (id total : Int) (name : String) : ycd.YCDFile :=
  { Header := { FileVersion := "1.1.0", Radix := 16,
                FirstDigits := "3.243f6a8885a308d313198a2e03707344a4093822299f31d008",
                TotalDigits := total, BlockSize := 100, BlockID := id, Length := 198 },
    Name := name, FirstDigitOffset := 201 }

/-- The set of `TestResultSet_Decimal`: three full decimal shards. -/
def testSetDecimal : ResultSet :=
  [decShard 0 0 "Pi - Dec - Chudnovsky/Pi - Dec - Chudnovsky - 0.ycd",
   decShard 1 0 "Pi - Dec - Chudnovsky/Pi - Dec - Chudnovsky - 1.ycd",
   decShard 2 0 "Pi - Dec - Chudnovsky/Pi - Dec - Chudnovsky - 2.ycd"]

/-- The set of `TestResultSet_Hexadecimal`: three full hexadecimal shards. -/
def testSetHexadecimal : ResultSet :=
  [hexShard 0 0 "Pi - Hex - Chudnovsky/Pi - Hex - Chudnovsky - 0.ycd",
   hexShard 1 0 "Pi - Hex - Chudnovsky/Pi - Hex - Chudnovsky - 1.ycd",
   hexShard 2 0 "Pi - Hex - Chudnovsky/Pi - Hex - Chudnovsky - 2.ycd"]

/-- The set of `TestResultSet_DecimalPartialBlock`: a full shard and a last
shard whose header carries `TotalDigits: 150`. -/
def testSetPartialBlock : ResultSet :=
  [decShard 0 0 "Pi - Dec - Chudnovsky/Pi - Dec - Chudnovsky - 0.ycd",
   decShard 1 150 "Pi - Dec - Chudnovsky/Pi - Dec - Chudnovsky - 1.ycd"]

/-- A one-shard decimal set whose header promises fifty digits in all, the
length of `piDecimal`. -/
def fiftyDigitSet : ResultSet :=
  [decShard 0 50 "Pi - Dec - Chudnovsky/Pi - Dec - Chudnovsky - 0.ycd"]

/-- The first fifty fractional decimal digits of π, as ASCII bytes. -/
def piDecimal : List UInt8 :=
  "14159265358979323846264338327950288419716939937510".data.map (fun c => c.toNat.toUInt8)

/-- The configuration of the handler tests, over the test tables: the default
cap of 1000 digits per request. -/
def testConfig : rest.Config :=
  { maxDigitsPerRequest := 1000, Decimal := testSetDecimal, Hexadecimal := testSetHexadecimal }

/-- The query `radix=..&start=..&numberOfDigits=..` of the handler tests; an
empty string stands for an absent key. -/
def query (radix start n : String) : url.Values := fun key =>
  if key = "radix" then radix
  else if key = "start" then start
  else if key = "numberOfDigits" then n
  else ""

/-- A configuration whose decimal index is the fifty-digit set. -/
def fiftyConfig : rest.Config :=
  { maxDigitsPerRequest := 1000, Decimal := fiftyDigitSet, Hexadecimal := testSetHexadecimal }

/-- The request of `TestGetPi_Validation`, `start=-1`, once bound: the other
two fields at their defaults. -/
def negativeStart : server.getPiRequest :=
  { NumberOfDigits := 100, Start := -1, Radix := 10 }

/-- The validation error of the request `start=-1`. -/
def negativeStartError : GoError :=
  { msg := "Key: 'getPiRequest.Start' Error:Field validation for 'Start' failed on the 'min' tag",
    isEOF := false }

/-- A reader over a failing bucket: every `ReadAt` stores nothing and reports
an error that is not `io.EOF`. -/
def brokenReadAt : unpack.ReaderAt := fun _ _ =>
  { data := [], err := some { msg := "storage: object not found", isEOF := false } }

end fixtures

/-! ## Properties of `Service.Get` -/

namespace service

open resultset unpack fixtures

theorem wrapInt64_pred (start : Int) (h0 : 0 < start) (h1 : start ≤ maxInt64) :
    wrapInt64 (start - 1) = start - 1 := by
  unfold wrapInt64 maxInt64 at *
  omega

theorem readOffset_of_pos (start : Int) (h0 : 0 < start) (h1 : start ≤ maxInt64) :
    readOffset start = start - 1 := by
  unfold readOffset
  rw [if_neg (by omega), wrapInt64_pred start h0 h1]

theorem readOffset_nonneg (start : Int) (h0 : 0 ≤ start) (h1 : start ≤ maxInt64) :
    0 ≤ readOffset start := by
  by_cases hz : start = 0
  · simp [readOffset, hz]
  · rw [readOffset_of_pos start (by omega) h1]; omega

/-- With the integer digit in slot 0, the slice `unpacked[:read+1]` is that
digit followed by what `ReadAt` stored. -/
theorem take_buffer_zero (fd : UInt8) (N : Nat) (hN : 0 < N) (data : List UInt8) :
    ((((List.replicate N (0 : UInt8)).set 0 fd).take 1 ++ data ++
        ((List.replicate N (0 : UInt8)).set 0 fd).drop (1 + data.length)).take (data.length + 1))
      = fd :: data := by
  obtain ⟨m, rfl⟩ : ∃ m, N = m + 1 := ⟨N - 1, by omega⟩
  simp [List.replicate_succ, List.take_append_eq_append_take]

/-- Without the integer digit, the slice `unpacked[:read]` is what `ReadAt` stored. -/
theorem take_buffer_nonzero (N : Nat) (data : List UInt8) :
    (((List.replicate N (0 : UInt8)).take 0 ++ data ++
        (List.replicate N (0 : UInt8)).drop (0 + data.length)).take data.length)
      = data := by
  simp [List.take_append_eq_append_take]

/-- Normal form of `Get` for a positive count: one `ReadAt`, then either the
wrapped fatal error or `finish`. -/
theorem Get_eq (reader : ReaderAt) (set : ResultSet) (start n : Int) (hn : 0 < n) :
    Get reader set start n =
      match (reader (readLength start n) (readOffset start)).err with
      | some err =>
        if err.isEOF then finish set start n (reader (readLength start n) (readOffset start))
        else { ret := some ([], some (wrapError "reader ReadAt()" err)),
               trace := [Event.newReader, Event.readAt (readLength start n) (readOffset start),
                         Event.close] }
      | none => finish set start n (reader (readLength start n) (readOffset start)) := by
  have h1 : ¬ n = 0 := by omega
  have h2 : ¬ n < 0 := by omega
  have hN : 0 < n.toNat := by omega
  by_cases hz : start = 0
  · subst hz
    have hb := take_buffer_zero (FirstDigit set) n.toNat hN
    simp only [Get, h1, h2, if_false, decide_True, if_true, readLength, readOffset, finish,
      integerPart, List.length_drop, List.length_set, List.length_replicate]
    cases hr : (reader (n.toNat - 1) 0).err with
    | none =>
      simp only [hb]
      by_cases hl : (reader (n.toNat - 1) 0).data.length + 1 ≤ n.toNat
      · have : (reader (n.toNat - 1) 0).data.length ≤ n.toNat - 1 := by omega
        simp [hl, this]
      · have : ¬ (reader (n.toNat - 1) 0).data.length ≤ n.toNat - 1 := by omega
        simp [hl, this]
    | some e =>
      simp only [hb]
      cases he : e.isEOF with
      | false => simp
      | true =>
        by_cases hl : (reader (n.toNat - 1) 0).data.length + 1 ≤ n.toNat
        · have : (reader (n.toNat - 1) 0).data.length ≤ n.toNat - 1 := by omega
          simp [hl, this]
        · have : ¬ (reader (n.toNat - 1) 0).data.length ≤ n.toNat - 1 := by omega
          simp [hl, this]
  · have hb := take_buffer_nonzero n.toNat
    simp only [Get, h1, h2, hz, if_false, decide_False, Bool.false_eq_true, readLength,
      readOffset, finish, integerPart, List.length_drop, List.length_replicate, Nat.sub_zero,
      List.nil_append]
    rcases hr : (reader n.toNat (wrapInt64 (start - 1))).err with _ | e
    · simp only [hb, hr, Bool.false_eq_true, if_false]
      split <;> rfl
    · simp only [hb, hr, Bool.false_eq_true, if_false]
      cases he : e.isEOF with
      | false => simp
      | true =>
        simp only [Bool.not_true, Bool.false_eq_true, if_false, if_true]
        split <;> rfl

/-- `Get` when the reader reports no fatal error. -/
theorem Get_of_no_fatal (reader : ReaderAt) (set : ResultSet) (start n : Int) (hn : 0 < n)
    (he : ∀ e, (reader (readLength start n) (readOffset start)).err = some e → e.isEOF = true) :
    Get reader set start n = finish set start n (reader (readLength start n) (readOffset start)) := by
  rw [Get_eq reader set start n hn]
  rcases hr : (reader (readLength start n) (readOffset start)).err with _ | e
  · rfl
  · simp [he e hr]

/-- The integer digit followed by the window of the fractional stream is the
window of the logical stream. -/
theorem integerPart_append (set : ResultSet) (frac : List UInt8) (start n : Int)
    (h0 : 0 ≤ start) (h1 : start ≤ maxInt64) (hn : 0 < n) :
    integerPart set start ++ (frac.drop (readOffset start).toNat).take (readLength start n)
      = ((logical set frac).drop start.toNat).take n.toNat := by
  by_cases hz : start = 0
  · subst hz
    obtain ⟨m, hm⟩ : ∃ m, n.toNat = m + 1 := ⟨n.toNat - 1, by omega⟩
    simp [integerPart, readOffset, readLength, logical, hm]
  · have hs : start.toNat = (start - 1).toNat + 1 := by omega
    rw [readOffset_of_pos start (by omega) h1, hs]
    simp [integerPart, readLength, logical, hz]

/-- Over a digit stream, `Get` returns the requested window of the logical stream. -/
theorem Get_stream (reader : ReaderAt) (set : ResultSet) (frac : List UInt8) (start n : Int)
    (hs : ReadsStream reader frac) (h0 : 0 ≤ start) (h1 : start ≤ maxInt64) (hn : 0 ≤ n) :
    (Get reader set start n).ret =
      some (((logical set frac).drop start.toNat).take n.toNat, none) := by
  by_cases hz : n = 0
  · subst hz; simp [Get]
  · have hpos : 0 < n := by omega
    have hoff := readOffset_nonneg start h0 h1
    obtain ⟨hd, he⟩ := hs (readLength start n) (readOffset start) hoff
    rw [Get_of_no_fatal reader set start n hpos he]
    have hlen : (reader (readLength start n) (readOffset start)).data.length
        ≤ readLength start n := by
      rw [hd]; simp [List.length_take]
    simp only [finish, hlen, if_true]
    rw [hd, integerPart_append set frac start n h0 h1 hpos]

/-- The stream reader of the spec serves its stream. -/
theorem streamReadAt_readsStream (frac : List UInt8) : ReadsStream (streamReadAt frac) frac := by
  intro len off _
  refine ⟨rfl, ?_⟩
  intro e he
  simp only [streamReadAt] at he
  split at he
  · cases he; rfl
  · cases he

theorem head_take_one_drop (l : List UInt8) (k : Nat) : ((l.drop k).take 1).head? = l[k]? := by
  rcases h : l.drop k with _ | ⟨x, xs⟩
  · have : l.length ≤ k := by simpa using h
    simp [List.getElem?_eq_none this]
  · have h2 : (l.drop k)[0]? = l[k]? := by simp [List.getElem?_drop]
    rw [h] at h2
    simpa using h2

/-- A set whose first shard's digit string starts with "3." has first digit `'3'`. -/
theorem FirstDigit_three (set : ResultSet) (f : ycd.YCDFile) (others : ResultSet)
    (tail : List Char) (hset : set = f :: others)
    (hfd : f.Header.FirstDigits.data = '3' :: '.' :: tail) :
    FirstDigit set = 51 := by
  subst hset
  simp only [FirstDigit, hfd, charBeforeDot]
  rfl

/-- Claim C1: for a result set with `T = TotalDigits set` fractional digits
served by a reader that reports no error other than EOF, every `start ≥ 0`
and `n ≥ 1`, `Get` returns without error exactly the logical digits at
positions `start .. min(start+n, T+1)-1`: position 0 is `FirstDigit set`,
position `i ≥ 1` is the digit the reader yields at offset `i-1`; when
`start > T` the result is empty. -/
theorem get_returns_logical_range (reader : ReaderAt) (set : ResultSet) (frac : List UInt8)
    (start n : Int) (hT : (frac.length : Int) = TotalDigits set) (hs : ReadsStream reader frac)
    (h0 : 0 ≤ start) (h1 : start ≤ maxInt64) (hn : 1 ≤ n) :
    ∃ out : List UInt8, (Get reader set start n).ret = some (out, none) ∧
      out.length = (min (start + n) (TotalDigits set + 1) - start).toNat ∧
      (∀ i : Nat, i < out.length →
        out[i]? = if start + (i : Int) = 0 then some (FirstDigit set)
                  else (reader 1 (start + (i : Int) - 1)).data.head?) ∧
      (TotalDigits set < start → out = []) := by
  refine ⟨((logical set frac).drop start.toNat).take n.toNat,
    Get_stream reader set frac start n hs h0 h1 (by omega), ?_, ?_, ?_⟩
  · simp only [List.length_take, List.length_drop, logical, List.length_cons]
    omega
  · intro i hi
    have hi2 : i < n.toNat := by
      simp only [List.length_take] at hi; omega
    rw [List.getElem?_take_of_lt hi2, List.getElem?_drop]
    by_cases hz : start + (i : Int) = 0
    · have : start.toNat + i = 0 := by omega
      simp [hz, this, logical]
    · obtain ⟨k, hk⟩ : ∃ k, start.toNat + i = k + 1 := ⟨start.toNat + i - 1, by omega⟩
      have hoff : (0 : Int) ≤ start + (i : Int) - 1 := by omega
      have hk2 : (start + (i : Int) - 1).toNat = k := by omega
      rw [if_neg hz, (hs 1 _ hoff).1, head_take_one_drop, hk, hk2]
      simp [logical]
  · intro hlt
    apply List.eq_nil_of_length_eq_zero
    simp only [List.length_take, List.length_drop, logical, List.length_cons]
    omega

/-- Claim C1 at the far edge of a fifty-digit set: five digits asked from
position 49, two served. -/
theorem get_returns_logical_range_witness :
    (piDecimal.length : Int) = TotalDigits fiftyDigitSet ∧
    ReadsStream (streamReadAt piDecimal) piDecimal ∧
    (0 : Int) ≤ 49 ∧ (49 : Int) ≤ maxInt64 ∧ (1 : Int) ≤ 5 ∧
    ∃ out : List UInt8,
      (Get (streamReadAt piDecimal) fiftyDigitSet 49 5).ret = some (out, none) ∧
      out.length = (min ((49 : Int) + 5) (TotalDigits fiftyDigitSet + 1) - 49).toNat ∧
      (∀ i : Nat, i < out.length →
        out[i]? = if (49 : Int) + (i : Int) = 0 then some (FirstDigit fiftyDigitSet)
                  else (streamReadAt piDecimal 1 ((49 : Int) + (i : Int) - 1)).data.head?) ∧
      (TotalDigits fiftyDigitSet < 49 → out = []) :=
  ⟨by decide, streamReadAt_readsStream piDecimal, by decide, by decide, by decide,
    get_returns_logical_range (streamReadAt piDecimal) fiftyDigitSet piDecimal 49 5
      (by decide) (streamReadAt_readsStream piDecimal) (by decide) (by decide) (by decide)⟩

/-- Claim C2: when `0 ≤ start`, `0 ≤ n` and `start + n ≤ TotalDigits set`,
the byte sequence `Get` returns has length exactly `n` (and the error is nil). -/
theorem get_length_exact (reader : ReaderAt) (set : ResultSet) (frac : List UInt8)
    (start n : Int) (hT : (frac.length : Int) = TotalDigits set) (hs : ReadsStream reader frac)
    (h0 : 0 ≤ start) (h1 : start ≤ maxInt64) (hn : 0 ≤ n) (hle : start + n ≤ TotalDigits set) :
    ∃ out : List UInt8,
      (Get reader set start n).ret = some (out, none) ∧ (out.length : Int) = n := by
  refine ⟨_, Get_stream reader set frac start n hs h0 h1 hn, ?_⟩
  simp only [List.length_take, List.length_drop, logical, List.length_cons]
  omega

/-- Claim C2 on the fifty-digit set: `Get(set, 40, 10)` has ten bytes. -/
theorem get_length_exact_witness :
    (piDecimal.length : Int) = TotalDigits fiftyDigitSet ∧
    ReadsStream (streamReadAt piDecimal) piDecimal ∧
    (0 : Int) ≤ 40 ∧ (40 : Int) ≤ maxInt64 ∧ (0 : Int) ≤ 10 ∧
    (40 : Int) + 10 ≤ TotalDigits fiftyDigitSet ∧
    ∃ out : List UInt8,
      (Get (streamReadAt piDecimal) fiftyDigitSet 40 10).ret = some (out, none) ∧
      (out.length : Int) = 10 :=
  ⟨by decide, streamReadAt_readsStream piDecimal, by decide, by decide, by decide, by decide,
    get_length_exact (streamReadAt piDecimal) fiftyDigitSet piDecimal 40 10
      (by decide) (streamReadAt_readsStream piDecimal) (by decide) (by decide) (by decide)
      (by decide)⟩

/-- Claim C3: for every `start ≥ 0` and `a, b ≥ 0`, `Get(set, start, a)`
followed by `Get(set, start+a, b)` is `Get(set, start, a+b)`, the cases
`start = 0` and `a = 0` included (all three calls return a nil error). -/
theorem get_concat (reader : ReaderAt) (set : ResultSet) (frac : List UInt8)
    (start a b : Int) (hs : ReadsStream reader frac)
    (h0 : 0 ≤ start) (ha : 0 ≤ a) (hb : 0 ≤ b) (h1 : start + a ≤ maxInt64) :
    ∃ x y z : List UInt8,
      (Get reader set start a).ret = some (x, none) ∧
      (Get reader set (start + a) b).ret = some (y, none) ∧
      (Get reader set start (a + b)).ret = some (z, none) ∧
      x ++ y = z := by
  refine ⟨_, _, _, Get_stream reader set frac start a hs h0 (by omega) ha,
    Get_stream reader set frac (start + a) b hs (by omega) h1 hb,
    Get_stream reader set frac start (a + b) hs h0 (by omega) (by omega), ?_⟩
  have e1 : (start + a).toNat = start.toNat + a.toNat := by omega
  have e2 : (a + b).toNat = a.toNat + b.toNat := by omega
  rw [e1, e2, List.take_add, List.drop_drop]

/-- Claim C3 at `start = 0`: the integer digit alone, then four fractional digits. -/
theorem get_concat_witness :
    ReadsStream (streamReadAt piDecimal) piDecimal ∧
    (0 : Int) ≤ 0 ∧ (0 : Int) ≤ 1 ∧ (0 : Int) ≤ 4 ∧ (0 : Int) + 1 ≤ maxInt64 ∧
    ∃ x y z : List UInt8,
      (Get (streamReadAt piDecimal) testSetDecimal 0 1).ret = some (x, none) ∧
      (Get (streamReadAt piDecimal) testSetDecimal (0 + 1) 4).ret = some (y, none) ∧
      (Get (streamReadAt piDecimal) testSetDecimal 0 (1 + 4)).ret = some (z, none) ∧
      x ++ y = z :=
  ⟨streamReadAt_readsStream piDecimal, by decide, by decide, by decide, by decide,
    get_concat (streamReadAt piDecimal) testSetDecimal piDecimal 0 1 4
      (streamReadAt_readsStream piDecimal) (by decide) (by decide) (by decide) (by decide)⟩

/-- Claim C4: on a set whose digit string starts with "3." (both radices),
`Get(set, 0, 1)` asks the reader for an empty buffer at digit offset 0 and
returns exactly `[set.FirstDigit()]`, the single byte `'3'`, with a nil
error, as long as that empty read reports no error other than EOF. -/
theorem get_integer_digit (reader : ReaderAt) (set : ResultSet) (f : ycd.YCDFile)
    (others : ResultSet) (tail : List Char)
    (hset : set = f :: others) (hfd : f.Header.FirstDigits.data = '3' :: '.' :: tail)
    (hdata : (reader 0 0).data = [])
    (herr : ∀ e, (reader 0 0).err = some e → e.isEOF = true) :
    Get reader set 0 1 =
      { ret := some ([FirstDigit set], none),
        trace := [Event.newReader, Event.readAt 0 0, Event.close] } ∧
    FirstDigit set = '3'.toNat.toUInt8 := by
  refine ⟨?_, FirstDigit_three set f others tail hset hfd⟩
  have hl : readLength 0 1 = 0 := by decide
  have ho : readOffset 0 = 0 := by decide
  rw [Get_of_no_fatal reader set 0 1 (by decide) (by rw [hl, ho]; exact herr)]
  simp [finish, hl, ho, hdata, integerPart]

/-- Claim C4 on the decimal and the hexadecimal test sets. -/
theorem get_integer_digit_witness :
    (Get (streamReadAt piDecimal) testSetDecimal 0 1 =
      { ret := some ([FirstDigit testSetDecimal], none),
        trace := [Event.newReader, Event.readAt 0 0, Event.close] } ∧
     FirstDigit testSetDecimal = '3'.toNat.toUInt8) ∧
    (Get (streamReadAt []) testSetHexadecimal 0 1 =
      { ret := some ([FirstDigit testSetHexadecimal], none),
        trace := [Event.newReader, Event.readAt 0 0, Event.close] } ∧
     FirstDigit testSetHexadecimal = '3'.toNat.toUInt8) :=
  ⟨get_integer_digit (streamReadAt piDecimal) testSetDecimal _ _ _ rfl rfl rfl
      (fun e he => by cases he),
   get_integer_digit (streamReadAt []) testSetHexadecimal _ _ _ rfl rfl rfl
      (fun e he => by cases he)⟩

/-- Claim C5: for every result set and every `start`, `Get(set, start, 0)`
returns an empty byte sequence and a nil error, and makes no call at all:
no reader is built and nothing is read. -/
theorem get_zero_digits (reader : ReaderAt) (set : ResultSet) (start : Int) :
    Get reader set start 0 = { ret := some ([], none), trace := [] } := by
  simp [Get]

/-- Claim C6: for `n ≥ 1`, `Get` makes exactly one `ReadAt` call and returns
a non-nil error if and only if that call returns an error for which
`errors.Is(err, io.EOF)` fails; when the call returns `(read, EOF)` the
result is the integer digit (if `start = 0`) followed by the bytes read, with
a nil error; and whenever `Get` returns an error it returns no bytes. -/
theorem get_error_iff (reader : ReaderAt) (set : ResultSet) (start n : Int) (hn : 1 ≤ n) :
    (Get reader set start n).trace =
        [Event.newReader, Event.readAt (readLength start n) (readOffset start), Event.close] ∧
    ((∃ out e, (Get reader set start n).ret = some (out, some e)) ↔
      ∃ e, (reader (readLength start n) (readOffset start)).err = some e ∧ e.isEOF = false) ∧
    (∀ e, (reader (readLength start n) (readOffset start)).err = some e → e.isEOF = true →
      (reader (readLength start n) (readOffset start)).data.length ≤ readLength start n →
      (Get reader set start n).ret =
        some (integerPart set start ++ (reader (readLength start n) (readOffset start)).data,
              none)) ∧
    (∀ out e, (Get reader set start n).ret = some (out, some e) → out = []) := by
  rw [Get_eq reader set start n (by omega)]
  rcases hr : (reader (readLength start n) (readOffset start)).err with _ | e
  · refine ⟨rfl, ?_, ?_, ?_⟩
    · simp only [finish]
      constructor
      · rintro ⟨out, e, h⟩
        split at h <;> simp at h
      · rintro ⟨e, h, _⟩
        cases h
    · intro e h; cases h
    · intro out e h
      simp only [finish] at h
      split at h <;> simp at h
  · by_cases he : e.isEOF = true
    · simp only [he, if_true]
      refine ⟨rfl, ?_, ?_, ?_⟩
      · simp only [finish]
        constructor
        · rintro ⟨out, e2, h⟩
          split at h <;> simp at h
        · rintro ⟨e2, h, h2⟩
          cases h
          rw [he] at h2
          cases h2
      · intro e2 _ _ hlen
        simp [finish, hlen]
      · intro out e2 h
        simp only [finish] at h
        split at h <;> simp at h
    · have hf : e.isEOF = false := by simpa using he
      simp only [hf, Bool.false_eq_true, if_false]
      refine ⟨trivial, ?_, ?_, ?_⟩
      · constructor
        · intro _
          exact ⟨e, rfl, hf⟩
        · intro _
          exact ⟨[], wrapError "reader ReadAt()" e, rfl⟩
      · intro e2 h h2
        cases h
        rw [hf] at h2
        cases h2
      · intro out e2 h
        simp only [Option.some.injEq, Prod.mk.injEq] at h
        exact h.1.symm

/-- Claim C6 over a failing bucket: `Get(set, 7, 3)` returns an error and no bytes. -/
theorem get_error_iff_witness :
    (1 : Int) ≤ 3 ∧
    ((∃ out e, (Get brokenReadAt fiftyDigitSet 7 3).ret = some (out, some e)) ↔
      ∃ e, (brokenReadAt (readLength 7 3) (readOffset 7)).err = some e ∧ e.isEOF = false) ∧
    (∀ out e, (Get brokenReadAt fiftyDigitSet 7 3).ret = some (out, some e) → out = []) :=
  ⟨by decide, (get_error_iff brokenReadAt fiftyDigitSet 7 3 (by decide)).2.1,
    (get_error_iff brokenReadAt fiftyDigitSet 7 3 (by decide)).2.2.2⟩

end service

/-! ## Properties of the handler `Get` -/

namespace rest

open resultset

theorem getIntQueryParam_ok_iff (q : url.Values) (name : String) (dflt v : Int) :
    getIntQueryParam q name dflt = Except.ok v ↔ parsesAs q name dflt v := by
  unfold getIntQueryParam parsesAs
  by_cases hp : q name = ""
  · simp [hp, eq_comm]
  · simp only [hp, if_false, false_and, false_or, ne_eq, not_false_eq_true, true_and]
    rcases hpi : strconv.ParseInt (q name) with _ | i
    · simp
    · simp

theorem getIntQueryParam_error (q : url.Values) (name : String) (dflt : Int) (e : String)
    (h : getIntQueryParam q name dflt = Except.error e) :
    e = "invalid request: " ++ name := by
  unfold getIntQueryParam at h
  by_cases hp : q name = ""
  · simp [hp] at h
  · simp only [hp, if_false] at h
    rcases hpi : strconv.ParseInt (q name) with _ | i
    · rw [hpi] at h
      simp only [Except.error.injEq] at h
      exact h.symm
    · rw [hpi] at h
      cases h

theorem parsesAs_unique (q : url.Values) (name : String) (dflt v w : Int)
    (hv : parsesAs q name dflt v) (hw : parsesAs q name dflt w) : v = w := by
  rw [← getIntQueryParam_ok_iff] at hv hw
  rw [hv] at hw
  cases hw
  rfl

/-- Every run of the handler either enters the core on an accepted request,
or turns the request away with a 400 whose text has no `"content"` key. -/
theorem Get_cases (cfg : Config) (mkReader : ResultSet → unpack.ReaderAt) (q : url.Values) :
    (∃ radix start n, Accepted cfg q radix start n ∧
        (Get cfg mkReader q).core = some { set := selectSet cfg radix, start := start, n := n }) ∨
    ((¬ ∃ radix start n, Accepted cfg q radix start n) ∧
        ∃ s, Get cfg mkReader q = reject s ∧ ¬ hasContentField s) := by
  unfold Get
  rcases h1 : getIntQueryParam q "radix" 10 with e | radix
  · right
    refine ⟨?_, e, rfl, ?_⟩
    · rintro ⟨r, s, n, hr, _⟩
      rw [← getIntQueryParam_ok_iff, h1] at hr
      cases hr
    · rw [getIntQueryParam_error q _ _ e h1]; decide
  · have hr := (getIntQueryParam_ok_iff q _ _ _).1 h1
    dsimp only
    by_cases hrad : radix ≠ 10 ∧ radix ≠ 16
    · right
      rw [if_pos hrad]
      refine ⟨?_, _, rfl, by decide⟩
      rintro ⟨r, s, n, hr2, h, _⟩
      have := parsesAs_unique q _ _ _ _ hr hr2
      omega
    · rw [if_neg hrad]
      have hrad2 : radix = 10 ∨ radix = 16 := by omega
      rcases h2 : getIntQueryParam q "start" 0 with e | start
      · right
        refine ⟨?_, e, rfl, ?_⟩
        · rintro ⟨r, s, n, _, _, hs, _⟩
          rw [← getIntQueryParam_ok_iff, h2] at hs
          cases hs
        · rw [getIntQueryParam_error q _ _ e h2]; decide
      · have hs := (getIntQueryParam_ok_iff q _ _ _).1 h2
        dsimp only
        by_cases hneg : start < 0
        · right
          rw [if_pos hneg]
          refine ⟨?_, _, rfl, by decide⟩
          rintro ⟨r, s, n, _, _, hs2, h, _⟩
          have := parsesAs_unique q _ _ _ _ hs hs2
          omega
        · rw [if_neg hneg]
          by_cases hbig : start > TotalDigits (selectSet cfg radix)
          · right
            rw [if_pos hbig]
            refine ⟨?_, _, rfl, by decide⟩
            rintro ⟨r, s, n, hr2, _, hs2, _, h, _⟩
            have e1 := parsesAs_unique q _ _ _ _ hr hr2
            have e2 := parsesAs_unique q _ _ _ _ hs hs2
            subst e1 e2
            omega
          · rw [if_neg hbig]
            rcases h3 : getIntQueryParam q "numberOfDigits" 100 with e | n
            · right
              refine ⟨?_, e, rfl, ?_⟩
              · rintro ⟨r, s, n, _, _, _, _, _, hn, _⟩
                rw [← getIntQueryParam_ok_iff, h3] at hn
                cases hn
              · rw [getIntQueryParam_error q _ _ e h3]; decide
            · have hn := (getIntQueryParam_ok_iff q _ _ _).1 h3
              dsimp only
              by_cases hnneg : n < 0
              · right
                rw [if_pos hnneg]
                refine ⟨?_, _, rfl, by decide⟩
                rintro ⟨r, s, m, _, _, _, _, _, hn2, h, _⟩
                have := parsesAs_unique q _ _ _ _ hn hn2
                omega
              · rw [if_neg hnneg]
                by_cases hnbig : n > cfg.maxDigitsPerRequest
                · right
                  rw [if_pos hnbig]
                  refine ⟨?_, _, rfl, by decide⟩
                  rintro ⟨r, s, m, _, _, _, _, _, hn2, _, h⟩
                  have := parsesAs_unique q _ _ _ _ hn hn2
                  omega
                · left
                  rw [if_neg hnbig]
                  refine ⟨radix, start, n,
                    ⟨hr, hrad2, hs, by omega, by omega, hn, by omega, by omega⟩, ?_⟩
                  rcases (service.Get (mkReader (selectSet cfg radix)) (selectSet cfg radix)
                      start n).ret with _ | ⟨out, _ | err⟩ <;> rfl

/-- Claim C7: the handler `Get` calls `Service.Get` if and only if `radix`
parses as an int64 in {10, 16} (default 10), `start` parses as an int64 with
`0 ≤ start ≤ set.TotalDigits()` (default 0) and `numberOfDigits` parses as an
int64 with `0 ≤ numberOfDigits ≤ maxDigitsPerRequest` (default 100), and then
with exactly those arguments; in every other case the response is a 400 with
a plain-text body holding no `"content"` key, and the core is not entered. -/
theorem handler_enters_core_iff (cfg : Config) (mkReader : ResultSet → unpack.ReaderAt)
    (q : url.Values) :
    ((∃ c, (Get cfg mkReader q).core = some c) ↔ ∃ radix start n, Accepted cfg q radix start n) ∧
    (∀ radix start n, Accepted cfg q radix start n →
      (Get cfg mkReader q).core = some { set := selectSet cfg radix, start := start, n := n }) ∧
    ((¬ ∃ radix start n, Accepted cfg q radix start n) →
      ∃ s, Get cfg mkReader q =
            { response := some { status := 400, contentType := "text/plain; charset=utf-8",
                                 allowOrigin := "*", body := Body.text s },
              core := none } ∧
          ¬ hasContentField s) := by
  rcases Get_cases cfg mkReader q with ⟨radix, start, n, hacc, hcore⟩ | ⟨hno, s, hget, hs⟩
  · refine ⟨⟨fun _ => ⟨radix, start, n, hacc⟩, fun _ => ⟨_, hcore⟩⟩, ?_, ?_⟩
    · intro r2 s2 n2 h2
      have e1 := parsesAs_unique q _ _ _ _ hacc.1 h2.1
      have e2 := parsesAs_unique q _ _ _ _ hacc.2.2.1 h2.2.2.1
      have e3 := parsesAs_unique q _ _ _ _ hacc.2.2.2.2.2.1 h2.2.2.2.2.2.1
      subst e1 e2 e3
      exact hcore
    · intro hno
      exact absurd ⟨radix, start, n, hacc⟩ hno
  · refine ⟨⟨?_, fun h => absurd h hno⟩, ?_, ?_⟩
    · rintro ⟨c, hc⟩
      rw [hget] at hc
      cases hc
    · intro r2 s2 n2 h2
      exact absurd ⟨r2, s2, n2, h2⟩ hno
    · intro _
      exact ⟨s, hget, hs⟩

/-- The rows of `TestGet_BadRequests`, each with the text the test looks for
(the seventh row with `start` 256 for the test's 456, to stay within the 300
digits of the test tables). -/
theorem handler_bad_requests :
    Get fixtures.testConfig (fun _ => unpack.streamReadAt fixtures.piDecimal)
        (fixtures.query "42" "0" "") = reject "radix must be either 10 or 16" ∧
    Get fixtures.testConfig (fun _ => unpack.streamReadAt fixtures.piDecimal)
        (fixtures.query "" "-1" "") = reject "start is negative" ∧
    Get fixtures.testConfig (fun _ => unpack.streamReadAt fixtures.piDecimal)
        (fixtures.query "abc" "" "") = reject "invalid request: radix" ∧
    Get fixtures.testConfig (fun _ => unpack.streamReadAt fixtures.piDecimal)
        (fixtures.query "" "9999999999999999999999" "") = reject "invalid request: start" ∧
    Get fixtures.testConfig (fun _ => unpack.streamReadAt fixtures.piDecimal)
        (fixtures.query "" "9223372036854775807" "") = reject "start out of range" ∧
    Get fixtures.testConfig (fun _ => unpack.streamReadAt fixtures.piDecimal)
        (fixtures.query "" "123" "-1") = reject "numberOfDigits is negative" ∧
    Get fixtures.testConfig (fun _ => unpack.streamReadAt fixtures.piDecimal)
        (fixtures.query "16" "256" "~&!)#!") = reject "invalid request: numberOfDigits" ∧
    Get fixtures.testConfig (fun _ => unpack.streamReadAt fixtures.piDecimal)
        (fixtures.query "16" "" "1001") = reject "numberOfDigits is too big" := by
  decide

/-- A served request: `start=1&numberOfDigits=5` enters the core with
`(Decimal, 1, 5)` and answers 200 with the digits `14159`. -/
theorem handler_serves_sample :
    Get fixtures.testConfig (fun _ => unpack.streamReadAt fixtures.piDecimal)
        (fixtures.query "" "1" "5") =
      { response := some { status := 200, contentType := "application/json", allowOrigin := "*",
                           body := Body.json [49, 52, 49, 53, 57] },
        core := some { set := fixtures.testSetDecimal, start := 1, n := 5 } } := by
  decide

end rest

/-! ## Properties of the result-set geometry -/

namespace resultset

open fixtures

theorem tdiv_tmod_block (L k r : Int) (hL : 0 < L) (hk : 0 ≤ k) (hr0 : 0 ≤ r) (hr : r < L) :
    Int.tdiv (k * L + r) L = k ∧ Int.tmod (k * L + r) L = r := by
  have hkL : 0 ≤ k * L := Int.mul_nonneg hk hL.le
  have hnn : 0 ≤ k * L + r := by omega
  have hne : L ≠ 0 := by omega
  constructor
  · rw [Int.tdiv_eq_ediv hnn hL.le, Int.add_comm, Int.add_mul_ediv_right r k hne,
      Int.ediv_eq_zero_of_lt hr0 hr]
    omega
  · rw [Int.tmod_eq_emod hnn hL.le, Int.add_comm, Int.add_mul_emod_self,
      Int.emod_eq_of_lt hr0 hr]

/-- An offset at or past the end lies at byte 0 of block `len(shards)`. -/
theorem OffsetToBlockPos_past_end (s : ResultSet) (off : Int)
    (hoff : (s.length : Int) * BlockByteLength s ≤ off) :
    OffsetToBlockPos s off = ((s.length : Int), 0) := by
  unfold OffsetToBlockPos
  rw [if_pos hoff]

/-- Offset `k*L + r` with `k < len(shards)` and `0 ≤ r < L` lies in block `k`
at byte `r`. -/
theorem OffsetToBlockPos_in_range (s : ResultSet) (k r : Int) (hL : 0 < BlockByteLength s)
    (hk : 0 ≤ k) (hkN : k < (s.length : Int)) (hr0 : 0 ≤ r) (hr : r < BlockByteLength s) :
    OffsetToBlockPos s (k * BlockByteLength s + r) = (k, r) := by
  obtain ⟨h1, h2⟩ := tdiv_tmod_block (BlockByteLength s) k r hL hk hr0 hr
  have hlt : ¬ (s.length : Int) * BlockByteLength s ≤ k * BlockByteLength s + r := by
    have hmul : (k + 1) * BlockByteLength s ≤ (s.length : Int) * BlockByteLength s :=
      Int.mul_le_mul_of_nonneg_right (by omega) hL.le
    have hexp : (k + 1) * BlockByteLength s = k * BlockByteLength s + BlockByteLength s := by
      rw [Int.add_mul, Int.one_mul]
    omega
  unfold OffsetToBlockPos
  rw [if_neg hlt, h1, h2]

/-- The ten rows of `TestResultSet_Decimal` and `TestResultSet_Hexadecimal`. -/
theorem offset_to_block_pos_tests :
    OffsetToBlockPos testSetDecimal 0 = (0, 0) ∧
    OffsetToBlockPos testSetDecimal 47 = (0, 47) ∧
    OffsetToBlockPos testSetDecimal 48 = (1, 0) ∧
    OffsetToBlockPos testSetDecimal 143 = (2, 47) ∧
    OffsetToBlockPos testSetDecimal 144 = (3, 0) ∧
    OffsetToBlockPos testSetHexadecimal 0 = (0, 0) ∧
    OffsetToBlockPos testSetHexadecimal 55 = (0, 55) ∧
    OffsetToBlockPos testSetHexadecimal 56 = (1, 0) ∧
    OffsetToBlockPos testSetHexadecimal 167 = (2, 55) ∧
    OffsetToBlockPos testSetHexadecimal 168 = (3, 0) := by
  decide

/-- Claim C8 fails as stated: on the decimal test set (`N = 3` shards of
`L = 48` bytes) the offset `3 * 48 + 1`, with `k = 3 ≥ 0` and `0 ≤ r = 1 < 48`,
is past the end and gives `(3, 0)`, not `(k, r) = (3, 1)`. -/
theorem offset_block_law_counterexample :
    0 < BlockByteLength testSetDecimal ∧ (0 : Int) ≤ 3 ∧ (0 : Int) ≤ 1 ∧
    (1 : Int) < BlockByteLength testSetDecimal ∧
    OffsetToBlockPos testSetDecimal (3 * BlockByteLength testSetDecimal + 1) = (3, 0) ∧
    OffsetToBlockPos testSetDecimal (3 * BlockByteLength testSetDecimal + 1) ≠ (3, 1) := by
  decide

/-- Claim C8, amended: for a result set with block byte length `L > 0` and
`N` shards, `OffsetToBlockPos(k*L + r) = (k, r)` for every `0 ≤ k < N` and
`0 ≤ r < L`, and `OffsetToBlockPos(N*L) = (N, 0)`. -/
theorem offset_to_block_pos_in_range (s : ResultSet) (hL : 0 < BlockByteLength s) :
    (∀ k r : Int, 0 ≤ k → k < (s.length : Int) → 0 ≤ r → r < BlockByteLength s →
      OffsetToBlockPos s (k * BlockByteLength s + r) = (k, r)) ∧
    OffsetToBlockPos s ((s.length : Int) * BlockByteLength s) = ((s.length : Int), 0) :=
  ⟨fun k r hk hkN hr0 hr => OffsetToBlockPos_in_range s k r hL hk hkN hr0 hr,
    OffsetToBlockPos_past_end s _ (le_refl _)⟩

/-- Claim C8, amended, on the three full decimal shards of the test (`L = 48`). -/
theorem offset_to_block_pos_in_range_witness :
    0 < BlockByteLength testSetDecimal ∧
    (∀ k r : Int, 0 ≤ k → k < (testSetDecimal.length : Int) → 0 ≤ r →
      r < BlockByteLength testSetDecimal →
      OffsetToBlockPos testSetDecimal (k * BlockByteLength testSetDecimal + r) = (k, r)) ∧
    OffsetToBlockPos testSetDecimal ((testSetDecimal.length : Int) * BlockByteLength testSetDecimal)
      = ((testSetDecimal.length : Int), 0) :=
  ⟨by decide, offset_to_block_pos_in_range testSetDecimal (by decide)⟩

/-- Claim C9: for every byte offset at or past the end of the result set
(`byte_off ≥ len(shards) * block_byte_length`), `OffsetToBlockPos` returns
block id `len(shards)` with offset 0 within the block. -/
theorem offset_past_end_is_eof (s : ResultSet) (off : Int)
    (hoff : (s.length : Int) * BlockByteLength s ≤ off) :
    OffsetToBlockPos s off = ((s.length : Int), 0) :=
  OffsetToBlockPos_past_end s off hoff

/-- Claim C9 on the hexadecimal test set (`3 * 56 = 168` bytes) at offset 169. -/
theorem offset_past_end_is_eof_witness :
    (testSetHexadecimal.length : Int) * BlockByteLength testSetHexadecimal ≤ 169 ∧
    OffsetToBlockPos testSetHexadecimal 169 = ((testSetHexadecimal.length : Int), 0) :=
  ⟨by decide, offset_past_end_is_eof testSetHexadecimal 169 (by decide)⟩

/-- Claim C10 fails as stated: the set of `TestResultSet_DecimalPartialBlock`
(two shards of block size 100, last header `TotalDigits = 150`) has
`TotalDigits() = 150`, while `(N-1) * block_size + last.total_digits` is 250. -/
theorem total_digits_last_header_counterexample :
    testSetPartialBlock.getLast? =
      some (decShard 1 150 "Pi - Dec - Chudnovsky/Pi - Dec - Chudnovsky - 1.ycd") ∧
    TotalDigits testSetPartialBlock = 150 ∧
    ((testSetPartialBlock.length : Int) - 1) * BlockSize testSetPartialBlock + 150 = 250 ∧
    TotalDigits testSetPartialBlock ≠
      ((testSetPartialBlock.length : Int) - 1) * BlockSize testSetPartialBlock + 150 := by
  decide

/-- Claim C10, amended: for every non-empty result set of `N` shards,
`TotalDigits()` is the last shard's `total_digits` header itself when that
header is nonzero, and `N * block_size` otherwise. -/
theorem total_digits_of_last (s : ResultSet) (h : s ≠ []) :
    ((s.getLast h).Header.TotalDigits ≠ 0 →
      TotalDigits s = (s.getLast h).Header.TotalDigits) ∧
    ((s.getLast h).Header.TotalDigits = 0 →
      TotalDigits s = (s.length : Int) * BlockSize s) := by
  have hl : s.getLast? = some (s.getLast h) := List.getLast?_eq_getLast s h
  constructor
  · intro hp
    simp only [TotalDigits, hl, hp, ne_eq, not_false_eq_true, if_true]
  · intro hz
    simp only [TotalDigits, hl, hz, ne_eq, not_true_eq_false, if_false]

/-- Claim C10, amended, on the short-last-shard set of the test: the header value 150. -/
theorem total_digits_of_last_witness :
    testSetPartialBlock ≠ [] ∧ TotalDigits testSetPartialBlock = 150 :=
  ⟨by decide, (total_digits_of_last testSetPartialBlock (by decide)).1 (by decide)⟩

end resultset

/-! ## Totals and byte lengths of a result set -/

namespace resultset

open fixtures

/-- Rounding up by truncating division is the ceiling of the quotient. -/
theorem tdiv_round_up_eq_ceil (b d : Int) (hd : 0 < d) (hb : 0 ≤ b) :
    Int.tdiv (b + d - 1) d = ⌈(b : ℚ) / (d : ℚ)⌉ := by
  rw [Int.tdiv_eq_ediv (by omega) hd.le]
  symm
  rw [Int.ceil_eq_iff]
  have h1 := Int.ediv_add_emod (b + d - 1) d
  have h2 := Int.emod_nonneg (b + d - 1) (ne_of_gt hd)
  have h3 := Int.emod_lt_of_pos (b + d - 1) hd
  have hdq : (0 : ℚ) < (d : ℚ) := by exact_mod_cast hd
  constructor
  · rw [lt_div_iff₀ hdq]
    have h : ((b + d - 1) / d - 1) * d < b := by nlinarith
    exact_mod_cast h
  · rw [div_le_iff₀ hdq]
    have h : b ≤ (b + d - 1) / d * d := by nlinarith
    exact_mod_cast h

theorem DigitsPerWord_pos (s : ResultSet) (hr : Radix s = 10 ∨ Radix s = 16) :
    0 < DigitsPerWord s := by
  unfold DigitsPerWord
  rcases hr with h | h <;> simp [h]

/-- Claim C11: for every non-empty result set, `TotalDigits()` is the last
shard's `TotalDigits` header when that value is nonzero (two shards of block
size 100 whose last header is 150 give 150) and `len(set) * BlockSize()` when
it is zero (three full shards of block size 100 give 300). -/
theorem total_digits_header_or_full (s : ResultSet) (h : s ≠ []) :
    TotalDigits s =
      (if (s.getLast h).Header.TotalDigits ≠ 0 then (s.getLast h).Header.TotalDigits
       else (s.length : Int) * BlockSize s) ∧
    (s.length = 2 → BlockSize s = 100 → (s.getLast h).Header.TotalDigits = 150 →
      TotalDigits s = 150) ∧
    (s.length = 3 → BlockSize s = 100 → (s.getLast h).Header.TotalDigits = 0 →
      TotalDigits s = 300) := by
  have hl : s.getLast? = some (s.getLast h) := List.getLast?_eq_getLast s h
  have hmain : TotalDigits s =
      (if (s.getLast h).Header.TotalDigits ≠ 0 then (s.getLast h).Header.TotalDigits
       else (s.length : Int) * BlockSize s) := by
    simp only [TotalDigits, hl]
  refine ⟨hmain, ?_, ?_⟩
  · intro _ _ h150
    rw [hmain, h150]
    simp
  · intro h3 hb h0
    rw [hmain, h0, h3, hb]
    simp

/-- Claim C11 on the three sets of `resultset_test.go`: 150, 300 and 300. -/
theorem total_digits_header_or_full_witness :
    testSetPartialBlock ≠ [] ∧
    TotalDigits testSetPartialBlock =
      (if (testSetPartialBlock.getLast (by decide)).Header.TotalDigits ≠ 0
       then (testSetPartialBlock.getLast (by decide)).Header.TotalDigits
       else (testSetPartialBlock.length : Int) * BlockSize testSetPartialBlock) ∧
    TotalDigits testSetPartialBlock = 150 ∧
    testSetDecimal ≠ [] ∧ TotalDigits testSetDecimal = 300 ∧
    testSetHexadecimal ≠ [] ∧ TotalDigits testSetHexadecimal = 300 :=
  ⟨by decide, (total_digits_header_or_full testSetPartialBlock (by decide)).1,
    (total_digits_header_or_full testSetPartialBlock (by decide)).2.1 rfl rfl rfl,
    by decide, (total_digits_header_or_full testSetDecimal (by decide)).2.2 rfl rfl rfl,
    by decide, (total_digits_header_or_full testSetHexadecimal (by decide)).2.2 rfl rfl rfl⟩

/-- Claim C12: for a result set of radix 10 or 16 with a non-negative block
size, `BlockByteLength() = ceil(BlockSize() / DigitsPerWord()) * 8`, where
`DigitsPerWord()` is 19 for radix 10 and 16 for radix 16; block size 100
gives 48 bytes in decimal and 56 bytes in hexadecimal. -/
theorem block_byte_length_ceil (s : ResultSet) (hr : Radix s = 10 ∨ Radix s = 16)
    (hb : 0 ≤ BlockSize s) :
    BlockByteLength s = ⌈(BlockSize s : ℚ) / (DigitsPerWord s : ℚ)⌉ * 8 ∧
    (Radix s = 10 → DigitsPerWord s = 19) ∧
    (Radix s = 16 → DigitsPerWord s = 16) ∧
    (BlockSize s = 100 → Radix s = 10 → BlockByteLength s = 48) ∧
    (BlockSize s = 100 → Radix s = 16 → BlockByteLength s = 56) := by
  refine ⟨?_, ?_, ?_, ?_, ?_⟩
  · unfold BlockByteLength
    rw [tdiv_round_up_eq_ceil (BlockSize s) (DigitsPerWord s) (DigitsPerWord_pos s hr) hb]
  · intro h; simp [DigitsPerWord, h]
  · intro h; simp [DigitsPerWord, h]
  · intro h100 h10
    simp only [BlockByteLength, DigitsPerWord, h100, h10]
    decide
  · intro h100 h16
    simp only [BlockByteLength, DigitsPerWord, h100, h16]
    decide

/-- Claim C12 on the decimal and hexadecimal test sets: 48 and 56 bytes. -/
theorem block_byte_length_ceil_witness :
    (Radix testSetDecimal = 10 ∨ Radix testSetDecimal = 16) ∧ 0 ≤ BlockSize testSetDecimal ∧
    BlockByteLength testSetDecimal
      = ⌈(BlockSize testSetDecimal : ℚ) / (DigitsPerWord testSetDecimal : ℚ)⌉ * 8 ∧
    BlockByteLength testSetDecimal = 48 ∧
    (Radix testSetHexadecimal = 10 ∨ Radix testSetHexadecimal = 16) ∧
    0 ≤ BlockSize testSetHexadecimal ∧
    BlockByteLength testSetHexadecimal = 56 :=
  ⟨by decide, by decide,
    (block_byte_length_ceil testSetDecimal (by decide) (by decide)).1,
    (block_byte_length_ceil testSetDecimal (by decide) (by decide)).2.2.2.1 rfl rfl,
    by decide, by decide,
    (block_byte_length_ceil testSetHexadecimal (by decide) (by decide)).2.2.2.2 rfl rfl⟩

theorem BlockSize_withTotalDigits (g : ycd.YCDFile → Int) (s : ResultSet) :
    BlockSize (withTotalDigits g s) = BlockSize s := by
  cases s <;> rfl

theorem Radix_withTotalDigits (g : ycd.YCDFile → Int) (s : ResultSet) :
    Radix (withTotalDigits g s) = Radix s := by
  cases s <;> rfl

theorem BlockByteLength_withTotalDigits (g : ycd.YCDFile → Int) (s : ResultSet) :
    BlockByteLength (withTotalDigits g s) = BlockByteLength s := by
  simp only [BlockByteLength, DigitsPerWord, BlockSize_withTotalDigits, Radix_withTotalDigits]

/-- Claim C13: for every result set, `TotalByteLength() = len(shards) *
BlockByteLength()`; the value does not depend on any shard's `TotalDigits`
header (it is unchanged when the headers are rewritten at will, and equal for
sets of equal length, block size and radix), so a short last shard counts as
a full block. -/
theorem total_byte_length_geometric (s : ResultSet) :
    TotalByteLength s = (s.length : Int) * BlockByteLength s ∧
    (∀ g : ycd.YCDFile → Int, TotalByteLength (withTotalDigits g s) = TotalByteLength s) ∧
    (∀ t : ResultSet, t.length = s.length → BlockSize t = BlockSize s → Radix t = Radix s →
      TotalByteLength t = TotalByteLength s) := by
  refine ⟨rfl, ?_, ?_⟩
  · intro g
    have hlen : (withTotalDigits g s).length = s.length := by simp [withTotalDigits]
    simp only [TotalByteLength, BlockByteLength_withTotalDigits, hlen]
  · intro t hlen hbs hrad
    simp only [TotalByteLength, BlockByteLength, DigitsPerWord, hlen, hbs, hrad]

/-- The byte lengths the tests assert (96 for the set with the short last
shard, which differs from the first two full shards only in that header). -/
theorem total_byte_length_tests :
    TotalByteLength testSetPartialBlock = 96 ∧ TotalByteLength testSetDecimal = 144 ∧
    TotalByteLength testSetHexadecimal = 168 ∧
    withTotalDigits (fun _ => 0) testSetPartialBlock = List.take 2 testSetDecimal := by
  decide

end resultset

/-! ## The start gate of the two handlers -/

namespace rest

open resultset

/-- On an accepted request the handler is the core call followed by the 200 or 500 answer. -/
theorem Get_of_accepted (cfg : Config) (mkReader : ResultSet → unpack.ReaderAt) (q : url.Values)
    (radix start n : Int) (h : Accepted cfg q radix start n) :
    Get cfg mkReader q =
      match (service.Get (mkReader (selectSet cfg radix)) (selectSet cfg radix) start n).ret with
      | none =>
        { response := none, core := some { set := selectSet cfg radix, start := start, n := n } }
      | some (_, some _) =>
        { response := some (writeError 500 "Internal Server Error"),
          core := some { set := selectSet cfg radix, start := start, n := n } }
      | some (unpacked, none) =>
        { response := some { status := 200, contentType := "application/json",
                             allowOrigin := "*", body := Body.json unpacked },
          core := some { set := selectSet cfg radix, start := start, n := n } } := by
  obtain ⟨hr, hrad, hs, hs0, hsT, hn, hn0, hn1⟩ := h
  have e1 := (getIntQueryParam_ok_iff q _ _ _).2 hr
  have e2 := (getIntQueryParam_ok_iff q _ _ _).2 hs
  have e3 := (getIntQueryParam_ok_iff q _ _ _).2 hn
  unfold Get
  rw [e1]
  dsimp only
  rw [if_neg (by omega), e2]
  dsimp only
  rw [if_neg (by omega), if_neg (by omega), e3]
  dsimp only
  rw [if_neg (by omega), if_neg (by omega)]

end rest

namespace server

open service resultset unpack fixtures

/-- Claim C14: in the gin handler `getPi`, whenever `ShouldBind` returns an
error the handler aborts with status 400 and yet goes on: it picks the result
set from the bound struct's `Radix` and calls `Service.Get` with the struct's
`Start` and `NumberOfDigits`; when that call succeeds it even goes on to write
the 200 JSON answer behind the 400 header. -/
theorem getPi_continues_after_bind_error (cfg : rest.Config)
    (mkReader : ResultSet → unpack.ReaderAt) (bound : BindResult) (e : GoError)
    (h : bound.err = some e) :
    (getPi cfg mkReader bound).writes.head? = some (Write.abortWithError 400) ∧
    statusOf (getPi cfg mkReader bound) = some 400 ∧
    (getPi cfg mkReader bound).core =
      some { set := if bound.req.Radix = 16 then cfg.Hexadecimal else cfg.Decimal,
             start := bound.req.Start, n := bound.req.NumberOfDigits } ∧
    (∀ res, (service.Get
          (mkReader (if bound.req.Radix = 16 then cfg.Hexadecimal else cfg.Decimal))
          (if bound.req.Radix = 16 then cfg.Hexadecimal else cfg.Decimal)
          bound.req.Start bound.req.NumberOfDigits).ret = some (res, none) →
      (getPi cfg mkReader bound).writes = [Write.abortWithError 400, Write.json 200 res]) := by
  unfold statusOf getPi
  simp only [h]
  rcases hg : (service.Get
      (mkReader (if bound.req.Radix = 16 then cfg.Hexadecimal else cfg.Decimal))
      (if bound.req.Radix = 16 then cfg.Hexadecimal else cfg.Decimal)
      bound.req.Start bound.req.NumberOfDigits).ret with _ | ⟨out, _ | err⟩
  · simp [Write.code]
  · simp [Write.code]
  · simp [Write.code]

/-- Claim C14 on the request of `TestGetPi_Validation`: `start=-1` fails the
`min` tag, the status is 400, and the core is still called with `(-1, 100)`. -/
theorem getPi_continues_after_bind_error_witness :
    (validated 1000 testConfig negativeStart).err =
      some negativeStartError ∧
    statusOf (getPi testConfig (fun _ => streamReadAt piDecimal)
      (validated 1000 testConfig negativeStart)) = some 400 ∧
    (getPi testConfig (fun _ => streamReadAt piDecimal)
      (validated 1000 testConfig negativeStart)).core =
      some { set := testSetDecimal, start := -1, n := 100 } :=
  ⟨by decide,
   (getPi_continues_after_bind_error testConfig (fun _ => streamReadAt piDecimal)
      (validated 1000 testConfig negativeStart)
      negativeStartError (by decide)).2.1,
   (getPi_continues_after_bind_error testConfig (fun _ => streamReadAt piDecimal)
      (validated 1000 testConfig negativeStart)
      negativeStartError (by decide)).2.2.1⟩

/-- The struct-level validator reports nothing exactly below the total. -/
theorem validateGetPiRequest_nil_iff (cfg : rest.Config) (n start radix : Int)
    (hr : radix = 10 ∨ radix = 16) :
    validateGetPiRequest cfg { NumberOfDigits := n, Start := start, Radix := radix } = [] ↔
      start < TotalDigits (rest.selectSet cfg radix) := by
  unfold validateGetPiRequest rest.selectSet
  rcases hr with h | h
  · subst h
    by_cases hlt : start < TotalDigits cfg.Decimal
    · have : ¬ start ≥ TotalDigits cfg.Decimal := by omega
      simp [this, hlt]
    · have : start ≥ TotalDigits cfg.Decimal := by omega
      simp [this, hlt]
  · subst h
    by_cases hlt : start < TotalDigits cfg.Hexadecimal
    · have : ¬ start ≥ TotalDigits cfg.Hexadecimal := by omega
      simp [this, hlt]
    · have : start ≥ TotalDigits cfg.Hexadecimal := by omega
      simp [this, hlt]

/-- With valid radix and count, the functions handler enters the core exactly up to the total. -/
theorem rest_core_iff (cfg : rest.Config) (mkReader : ResultSet → unpack.ReaderAt)
    (q : url.Values) (radix start n : Int) (hrad : radix = 10 ∨ radix = 16)
    (hq : rest.parsesAs q "radix" 10 radix) (hs : rest.parsesAs q "start" 0 start)
    (hn : rest.parsesAs q "numberOfDigits" 100 n) (hn0 : 0 ≤ n)
    (hn1 : n ≤ cfg.maxDigitsPerRequest) (h0 : 0 ≤ start) :
    (∃ c, (rest.Get cfg mkReader q).core = some c) ↔
      start ≤ TotalDigits (rest.selectSet cfg radix) := by
  constructor
  · rintro ⟨c, hc⟩
    rcases rest.Get_cases cfg mkReader q with ⟨r2, s2, n2, hacc, _⟩ | ⟨_, s, hget, _⟩
    · have e1 := rest.parsesAs_unique q _ _ _ _ hq hacc.1
      have e2 := rest.parsesAs_unique q _ _ _ _ hs hacc.2.2.1
      subst e1 e2
      exact hacc.2.2.2.2.1
    · rw [hget] at hc
      cases hc
  · intro hle
    have hacc : rest.Accepted cfg q radix start n := ⟨hq, hrad, hs, h0, hle, hn, hn0, hn1⟩
    rw [rest.Get_of_accepted cfg mkReader q radix start n hacc]
    rcases (service.Get (mkReader (rest.selectSet cfg radix)) (rest.selectSet cfg radix)
      start n).ret with _ | ⟨out, _ | err⟩ <;> exact ⟨_, rfl⟩

/-- Dropping all but the last element of a non-empty list. -/
theorem drop_length_cons (a : UInt8) (l : List UInt8) :
    (a :: l).drop l.length = [(a :: l).getLast (List.cons_ne_nil a l)] := by
  induction l generalizing a with
  | nil => rfl
  | cons b t ih =>
    rw [List.length_cons, List.drop_succ_cons, ih b, List.getLast_cons (List.cons_ne_nil b t)]

/-- Claim C15: for radix 10 or 16 with result-set total `T` and a
non-negative `start`, the gin validator `validateGetPiRequest` reports
nothing exactly when `start < T`, the functions handler `Get` enters the core
exactly when `start ≤ T`; what the gin validator accepts the functions
handler accepts, the two disagree exactly at `start = T`, and there the
functions handler answers `n = 1` with the last digit of the stream. -/
theorem start_gate_gin_vs_functions (cfg : rest.Config) (mkReader : ResultSet → unpack.ReaderAt)
    (q : url.Values) (radix start n : Int) (hrad : radix = 10 ∨ radix = 16)
    (hq : rest.parsesAs q "radix" 10 radix) (hs : rest.parsesAs q "start" 0 start)
    (hn : rest.parsesAs q "numberOfDigits" 100 n) (hn0 : 0 ≤ n)
    (hn1 : n ≤ cfg.maxDigitsPerRequest) (h0 : 0 ≤ start) :
    (validateGetPiRequest cfg { NumberOfDigits := n, Start := start, Radix := radix } = [] ↔
      start < TotalDigits (rest.selectSet cfg radix)) ∧
    ((∃ c, (rest.Get cfg mkReader q).core = some c) ↔
      start ≤ TotalDigits (rest.selectSet cfg radix)) ∧
    (validateGetPiRequest cfg { NumberOfDigits := n, Start := start, Radix := radix } = [] →
      ∃ c, (rest.Get cfg mkReader q).core = some c) ∧
    (¬ (validateGetPiRequest cfg { NumberOfDigits := n, Start := start, Radix := radix } = [] ↔
        ∃ c, (rest.Get cfg mkReader q).core = some c) ↔
      start = TotalDigits (rest.selectSet cfg radix)) ∧
    (∀ frac : List UInt8,
      ReadsStream (mkReader (rest.selectSet cfg radix)) frac →
      (frac.length : Int) = TotalDigits (rest.selectSet cfg radix) →
      start = TotalDigits (rest.selectSet cfg radix) → start ≤ maxInt64 → n = 1 →
      rest.Get cfg mkReader q =
        { response := some { status := 200, contentType := "application/json",
                             allowOrigin := "*",
                             body := rest.Body.json
                               [(FirstDigit (rest.selectSet cfg radix) :: frac).getLast
                                  (List.cons_ne_nil _ _)] },
          core := some { set := rest.selectSet cfg radix, start := start, n := 1 } }) := by
  have hg := validateGetPiRequest_nil_iff cfg n start radix hrad
  have hf := rest_core_iff cfg mkReader q radix start n hrad hq hs hn hn0 hn1 h0
  refine ⟨hg, hf, ?_, ?_, ?_⟩
  · intro h
    exact hf.2 (by have := hg.1 h; omega)
  · rw [hg, hf]
    constructor
    · intro h
      by_contra hne
      apply h
      constructor <;> intro <;> omega
    · intro h hiff
      have := hiff.2 (by omega)
      omega
  · intro frac hstream hT hst hmax h1
    subst h1
    have hacc : rest.Accepted cfg q radix start 1 := ⟨hq, hrad, hs, h0, by omega, hn, hn0, hn1⟩
    rw [rest.Get_of_accepted cfg mkReader q radix start 1 hacc,
      Get_stream _ _ frac start 1 hstream h0 hmax (by decide)]
    have hnat : start.toNat = frac.length := by omega
    have h1 : (1 : Int).toNat = 1 := rfl
    simp only [logical, hnat, h1, drop_length_cons, List.take_succ_cons, List.take_zero]

/-- Claim C15 on the fifty-digit set: the two gates disagree at `start = 50`. -/
theorem start_gate_gin_vs_functions_witness :
    ((10 : Int) = 10 ∨ (10 : Int) = 16) ∧
    rest.parsesAs (query "" "50" "1") "radix" 10 10 ∧
    rest.parsesAs (query "" "50" "1") "start" 0 50 ∧
    rest.parsesAs (query "" "50" "1") "numberOfDigits" 100 1 ∧
    (0 : Int) ≤ 1 ∧ (1 : Int) ≤ fiftyConfig.maxDigitsPerRequest ∧ (0 : Int) ≤ 50 ∧
    (¬ (validateGetPiRequest fiftyConfig { NumberOfDigits := 1, Start := 50, Radix := 10 } = [] ↔
        ∃ c, (rest.Get fiftyConfig (fun _ => streamReadAt piDecimal) (query "" "50" "1")).core
              = some c) ↔
      (50 : Int) = TotalDigits (rest.selectSet fiftyConfig 10)) :=
  ⟨by decide, Or.inl ⟨by decide, rfl⟩, Or.inr ⟨by decide, by decide⟩,
    Or.inr ⟨by decide, by decide⟩, by decide, by decide, by decide,
    (start_gate_gin_vs_functions fiftyConfig (fun _ => streamReadAt piDecimal)
      (query "" "50" "1") 10 50 1 (by decide) (Or.inl ⟨by decide, rfl⟩)
      (Or.inr ⟨by decide, by decide⟩) (Or.inr ⟨by decide, by decide⟩)
      (by decide) (by decide) (by decide)).2.2.2.1⟩

/-- On the fifty-digit set `start=50&numberOfDigits=1` is served by the
functions handler with the last digit `0`, and reported by the gin validator. -/
theorem start_gate_last_digit_sample :
    rest.Get fiftyConfig (fun _ => streamReadAt piDecimal) (query "" "50" "1") =
      { response := some { status := 200, contentType := "application/json", allowOrigin := "*",
                           body := rest.Body.json [48] },
        core := some { set := fiftyDigitSet, start := 50, n := 1 } } ∧
    validateGetPiRequest fiftyConfig { NumberOfDigits := 1, Start := 50, Radix := 10 }
      = ["startoutofrange"] := by
  decide

end server
